import Mathlib

/-!
# Memory Keeper — verification of the memory lifecycle / query / merge core

Shallow embedding of the SQLite-backed core of `main.py` (class `MemoryKeeper`
and the merge engine of `MemoryKeeperImportExport`).

Modelling conventions:
* Each SQLite table is a Lean `List` of row structures; a `Store` bundles the
  four tables (`memories`, `memory_tags`, `responses`, `categories`).
* Timestamps (ISO-format strings in the source, compared by SQLite as TEXT,
  which on well-formed ISO strings coincides with chronological order) are
  modelled as `Nat` with the usual order.
* `uuid.uuid4()` values are modelled as caller-supplied `String` identifiers;
  operations that generate a fresh id take it as an explicit parameter.
* SQLite primary-key / unique constraints are modelled explicitly at each
  `INSERT` (an insert into `memories`, `responses` fails when the `id` is
  already present; an insert into `memory_tags` fails when the
  `(memory_id, tag)` pair is already present).  The connections in the source
  never execute `PRAGMA foreign_keys = ON`, so the `FOREIGN KEY` clauses of
  the schema are *not* enforced at runtime; the embedding therefore performs
  no foreign-key checks, exactly like the running program.
* Python's `sqlite3` opens an implicit transaction at the first data
  modification and publishes it only at `conn.commit()`; an exception that
  escapes before the commit leaves the on-disk store unchanged.  Fallible
  multi-statement writes are therefore given as a pure `run` function in the
  `Except` monad over the pending state, wrapped so that the error case
  returns the original store (the rollback).
-/

/-- One row of the `memories` table (schema in `setup_database`). -/
structure Memory where
  id : String
  title : String
  content : Option String
  media_path : Option String
  created_date : Nat
  unlock_date : Nat
  unlock_type : String
  /-- `unlock_conditions` holds `json.dumps` of a record containing only the
  unlock type; the JSON wrapping is abstracted to the payload itself. -/
  unlock_conditions : Option String
  is_unlocked : Bool
  category : Option String
  mood : Option String
  importance : Int
deriving DecidableEq

/-- One row of the `memory_tags` table; primary key `(memory_id, tag)`. -/
structure TagRow where
  memory_id : String
  tag : String
deriving DecidableEq

/-- One row of the `responses` table. -/
structure ResponseRow where
  id : String
  memory_id : String
  response_content : String
  response_date : Nat
  response_mood : Option String
deriving DecidableEq

/-- One row of the `categories` table; `id` is the primary key and `name` is
declared `UNIQUE`. -/
structure Category where
  id : String
  name : String
  description : Option String
  icon : Option String
deriving DecidableEq

/-- The whole database. -/
structure Store where
  memories : List Memory
  memory_tags : List TagRow
  responses : List ResponseRow
  categories : List Category
deriving DecidableEq

/-- The five seed categories inserted by `setup_database` when the
`categories` table is empty (uuid ids abstracted as distinct strings;
the apostrophe of the Gratitude description is spelled out). -/
def defaultCategories : List Category :=
  [ ⟨"cat-milestone", "Milestone", some "Important life events and achievements", some "trophy"⟩,
    ⟨"cat-letter", "Letter", some "Messages to your future self", some "envelope"⟩,
    ⟨"cat-question", "Question", some "Questions for your future self to answer", some "question-mark"⟩,
    ⟨"cat-prediction", "Prediction", some "Guesses about your future", some "crystal-ball"⟩,
    ⟨"cat-gratitude", "Gratitude", some "Things you are thankful for", some "heart"⟩ ]

/-- The store produced by `setup_database` on a fresh database file. -/
def initStore : Store :=
  { memories := [], memory_tags := [], responses := [], categories := defaultCategories }

/-! ## Row-level INSERT primitives (SQLite uniqueness constraints) -/

/-- `INSERT INTO memories`: fails when the primary key `id` already exists. -/
def insertMemoryRow (rows : List Memory) (m : Memory) : Except String (List Memory) :=
  if ∃ m0 ∈ rows, m0.id = m.id then
    .error "UNIQUE constraint failed: memories.id"
  else
    .ok (rows ++ [m])

/-- `INSERT INTO memory_tags`: fails when the `(memory_id, tag)` primary key
already exists. -/
def insertTagRow (rows : List TagRow) (r : TagRow) : Except String (List TagRow) :=
  if ∃ r0 ∈ rows, r0.memory_id = r.memory_id ∧ r0.tag = r.tag then
    .error "UNIQUE constraint failed: memory_tags.memory_id, memory_tags.tag"
  else
    .ok (rows ++ [r])

/-- `INSERT INTO responses`: fails when the primary key `id` already exists. -/
def insertResponseRow (rows : List ResponseRow) (r : ResponseRow) : Except String (List ResponseRow) :=
  if ∃ r0 ∈ rows, r0.id = r.id then
    .error "UNIQUE constraint failed: responses.id"
  else
    .ok (rows ++ [r])

/-- `INSERT OR IGNORE INTO categories`: silently keeps the table unchanged
when the row would violate the `id` primary key or the `name` UNIQUE
constraint. -/
def insertOrIgnoreCategory (rows : List Category) (c : Category) : List Category :=
  if ∃ c0 ∈ rows, c0.id = c.id ∨ c0.name = c.name then rows else rows ++ [c]

/-- The tag row written by `create_memory` and the merge for tag text `t`. -/
def mkTagRow (memory_id t : String) : TagRow := ⟨memory_id, t⟩

/-- The tag-insertion loop of `create_memory`: one `INSERT INTO memory_tags`
per tag, in list order, on the same uncommitted connection. -/
def insertTagRows (rows : List TagRow) (memory_id : String) (tags : List String) :
    Except String (List TagRow) :=
  tags.foldlM (fun acc t => insertTagRow acc (mkTagRow memory_id t)) rows

/-! ## MemoryKeeper operations -/

/-- The try-block of `MemoryKeeper.create_memory` up to (but excluding)
`conn.commit()`: insert the memory row, then each tag row, on one
uncommitted connection.  `memory_id` models the fresh `uuid.uuid4()` and
`now` the `datetime.now()` creation stamp. -/
def create_memory_run (s : Store) (memory_id : String) (now : Nat) (title : String)
    (content : Option String) (unlock_date : Nat) (category : Option String)
    (tags : List String) (media_path : Option String) (mood : Option String)
    (importance : Int) (unlock_type : String) : Except String (Store × String) := do
  let unlock_conditions : Option String :=
    if unlock_type ≠ "date" then some unlock_type else none
  let mems ← insertMemoryRow s.memories
    { id := memory_id, title := title, content := content, media_path := media_path,
      created_date := now, unlock_date := unlock_date, unlock_type := unlock_type,
      unlock_conditions := unlock_conditions, is_unlocked := false,
      category := category, mood := mood, importance := importance }
  let tagRows ← insertTagRows s.memory_tags memory_id tags
  .ok ({ s with memories := mems, memory_tags := tagRows }, memory_id)

/-- `MemoryKeeper.create_memory`.  On success the pending writes are
committed; when an insert raises, the exception escapes before
`conn.commit()` and the store is left unchanged (implicit rollback when the
connection is discarded). -/
def create_memory (s : Store) (memory_id : String) (now : Nat) (title : String)
    (content : Option String) (unlock_date : Nat) (category : Option String)
    (tags : List String) (media_path : Option String) (mood : Option String)
    (importance : Int) (unlock_type : String) : Store × Except String String :=
  match create_memory_run s memory_id now title content unlock_date category tags
      media_path mood importance unlock_type with
  | .ok (s', mid) => (s', .ok mid)
  | .error e => (s, .error e)

/-- `MemoryKeeper.unlock_memory`: `UPDATE memories SET is_unlocked = 1 WHERE
id = ?`; the returned Bool is `cursor.rowcount > 0`, i.e. whether a row with
that id existed (the assignment is unconditional, so re-unlocking an already
unlocked row still matches it). -/
def unlock_memory (s : Store) (memory_id : String) : Store × Bool :=
  ({ s with memories := s.memories.map fun m =>
      if m.id = memory_id then { m with is_unlocked := true } else m },
   s.memories.any fun m => m.id = memory_id)

/-- `MemoryKeeper.add_response`: a single `INSERT INTO responses` followed by
a commit.  No check that `memory_id` references an existing memory is
performed (the schema-level FOREIGN KEY is not enforced because
`PRAGMA foreign_keys` is never enabled).  `response_id` models the fresh
`uuid.uuid4()` and `now` the `datetime.now()` stamp. -/
def add_response (s : Store) (response_id : String) (now : Nat) (memory_id : String)
    (response_content : String) (mood : Option String) : Store × Except String String :=
  match insertResponseRow s.responses
      { id := response_id, memory_id := memory_id, response_content := response_content,
        response_date := now, response_mood := mood } with
  | .ok rows => ({ s with responses := rows }, .ok response_id)
  | .error e => (s, .error e)

/-- The record returned by `MemoryKeeper.get_memory_by_id`: exactly the
columns of its SELECT (note: `unlock_type`, `unlock_conditions` and
`is_unlocked` are *not* selected), plus the `tags` key, which is set only
when the tag list is nonempty. -/
structure MemoryView where
  id : String
  title : String
  content : Option String
  media_path : Option String
  created_date : Nat
  unlock_date : Nat
  category : Option String
  mood : Option String
  importance : Int
  tags : Option (List String)
deriving DecidableEq

/-- `MemoryKeeper.get_memory_by_id`: load the memory row (or `None`), then
its tag list; the `tags` key is added only if the list is nonempty. -/
def get_memory_by_id (s : Store) (memory_id : String) : Option MemoryView :=
  match s.memories.find? (fun m => m.id = memory_id) with
  | none => none
  | some m =>
    let tags := (s.memory_tags.filter fun t => t.memory_id = memory_id).map (·.tag)
    some { id := m.id, title := m.title, content := m.content,
           media_path := m.media_path, created_date := m.created_date,
           unlock_date := m.unlock_date, category := m.category, mood := m.mood,
           importance := m.importance,
           tags := if tags.isEmpty then none else some tags }

/-- `MemoryKeeper.delete_memory`: inside one transaction delete the
responses, then the tags, then the memory row; the returned Bool is the
`rowcount` of the *last* DELETE (the one on `memories`). -/
def delete_memory (s : Store) (memory_id : String) : Store × Bool :=
  ({ s with
      responses := s.responses.filter fun r => r.memory_id ≠ memory_id,
      memory_tags := s.memory_tags.filter fun t => t.memory_id ≠ memory_id,
      memories := s.memories.filter fun m => m.id ≠ memory_id },
   s.memories.any fun m => m.id = memory_id)

/-- `MemoryKeeper.get_unlockable_memories`: `SELECT ... FROM memories WHERE
is_unlocked = 0 AND unlock_date <= now` (the source selects a column subset;
the rows are returned whole here, the caller only uses `id`). -/
def get_unlockable_memories (s : Store) (now : Nat) : List Memory :=
  s.memories.filter fun m => m.is_unlocked = false ∧ m.unlock_date ≤ now

/-- `MemoryKeeperApp.check_unlockable_memories` (the scan-and-promote pass):
read all unlockable memories once, call `unlock_memory` on each, and count
the successes. -/
def check_unlockable_memories (s : Store) (now : Nat) : Store × Nat :=
  (get_unlockable_memories s now).foldl
    (fun acc m =>
      let (s', ok) := unlock_memory acc.1 m.id
      (s', if ok then acc.2 + 1 else acc.2))
    (s, 0)

/-! ## The locked-memory browse query (`get_locked_memories`) -/

/-- `b` starts with `a` (character-wise equality). -/
def charsStartWith : List Char → List Char → Bool
  | [], _ => true
  | _ :: _, [] => false
  | a :: as, b :: bs => a = b && charsStartWith as bs

/-- `needle` occurs as a contiguous substring of the character list. -/
def charsContain (needle : List Char) : List Char → Bool
  | [] => needle.isEmpty
  | c :: rest => charsStartWith needle (c :: rest) || charsContain needle rest

/-- The spec's wording of the search filter — "its title contains the text
(case-insensitively)" — as literal substring containment with no wildcard
reading.  This is the spec-side notion, kept to compare the code's LIKE
semantics against the spec's sentence; the query itself uses `likeContains`
below. -/
def specContains (hay pat : String) : Bool :=
  charsContain (pat.toList.map Char.toLower) (hay.toList.map Char.toLower)

/-- `likeAny matchRest hay`: SQLite LIKE's `%` wildcard — try to match the
rest of the pattern against every suffix of `hay` (including `hay` itself
and the empty suffix). -/
def likeAny (matchRest : List Char → Bool) : List Char → Bool
  | [] => matchRest []
  | c :: hs => matchRest (c :: hs) || likeAny matchRest hs

/-- SQLite LIKE pattern matching over character lists: `%` matches any
(possibly empty) sequence, `_` matches exactly one character, any other
pattern character matches itself. -/
def likeChars : List Char → List Char → Bool
  | [], hay => hay.isEmpty
  | p :: ps, hay =>
    if p = '%' then likeAny (likeChars ps) hay
    else
      match hay with
      | [] => false
      | h :: hs => (p = '_' || p = h) && likeChars ps hs

/-- `LOWER(X) LIKE ?` with the bound parameter `'%' + search_text + '%'`
(the source builds the pattern from the raw search text, so `%` and `_`
inside the search text act as LIKE wildcards).  SQLite's default LIKE is
ASCII-case-insensitive; the source additionally applies `LOWER` to the
column, and lowering both sides realises that case folding (wildcard
characters are fixed points of lowering). -/
def likeContains (hay pat : String) : Bool :=
  likeChars ('%' :: (pat.toList.map Char.toLower ++ ['%']))
    (hay.toList.map Char.toLower)

/-- The sort fields accepted by `get_locked_memories` (the source splices the
field name into the SQL text; these are the documented valid values). -/
inductive SortField
  | by_unlock_date
  | by_created_date
  | by_importance
deriving DecidableEq

/-- ASC / DESC. -/
inductive SortOrder
  | asc
  | desc
deriving DecidableEq

/-- Sort key of a memory for `ORDER BY m.<sort_field>`. -/
def sortKey (f : SortField) (m : Memory) : Int :=
  match f with
  | .by_unlock_date => Int.ofNat m.unlock_date
  | .by_created_date => Int.ofNat m.created_date
  | .by_importance => m.importance

/-- Comparison used to realise `ORDER BY m.<sort_field> <sort_order>`. -/
def sortLE (f : SortField) (o : SortOrder) (a b : Memory) : Bool :=
  match o with
  | .asc => sortKey f a ≤ sortKey f b
  | .desc => sortKey f b ≤ sortKey f a

/-- One result row of `get_locked_memories`: the selected columns plus the
tag list recovered from the `GROUP_CONCAT` aggregate. -/
structure LockedView where
  id : String
  title : String
  created_date : Nat
  unlock_date : Nat
  category : Option String
  importance : Int
  mood : Option String
  tags : Option (List String)
deriving DecidableEq

/-- Split a character list at every comma (Python `str.split(",")`): always
at least one group, empty groups kept. -/
def splitCommaChars : List Char → List (List Char)
  | [] => [[]]
  | c :: rest =>
    match splitCommaChars rest with
    | [] => [[]]
    | g :: gs => if c = ',' then [] :: g :: gs else (c :: g) :: gs

/-- Python `t.split(",")`. -/
def splitComma (t : String) : List String :=
  (splitCommaChars t.toList).map (fun g => String.mk g)

/-- The row `get_locked_memories` builds for memory `m` in store `s`:
`GROUP_CONCAT(mt.tag)` joins the memory's tag texts with commas (SQL NULL
when there is no tag row) and the Python side re-splits the string on
commas — so a stored tag that itself contains a comma comes back as several
display tags.  The `if memory.get("tags")` truthiness guard skips the split
both when the aggregate is NULL (no tags) and when it is the empty string
(every tag empty, so the untouched falsy value never becomes a list); both
cases are modelled as `none`. -/
def lockedView (s : Store) (m : Memory) : LockedView :=
  let tagList := (s.memory_tags.filter fun t => t.memory_id = m.id).map (·.tag)
  let joined := String.intercalate "," tagList
  { id := m.id, title := m.title, created_date := m.created_date,
    unlock_date := m.unlock_date, category := m.category,
    importance := m.importance, mood := m.mood,
    tags := if joined.isEmpty then none else some (splitComma joined) }

/-- The WHERE clause of `get_locked_memories`: `is_unlocked = 0`, the
category filter (added only when `category_id` is truthy, i.e. neither
`None` nor the empty string), and the search filter (added only when
`search_text` is nonempty): title LIKE match OR an EXISTS over the memory's
tag rows. -/
def lockedPass (s : Store) (category_id : Option String) (search_text : String)
    (m : Memory) : Bool :=
  m.is_unlocked = false
  && (match category_id with
      | none => true
      | some c => c.isEmpty || m.category = some c)
  && (search_text.isEmpty
      || (likeContains m.title search_text
          || s.memory_tags.any fun t =>
               t.memory_id = m.id && likeContains t.tag search_text))

/-- `MemoryKeeper.get_locked_memories`: filter, group tags per memory, sort
by the requested field and order, truncate to `limit`. -/
def get_locked_memories (s : Store) (category_id : Option String)
    (sort_field : SortField) (sort_order : SortOrder) (search_text : String)
    (limit : Nat) : List LockedView :=
  ((((s.memories.filter (lockedPass s category_id search_text)).mergeSort
      (sortLE sort_field sort_order)).take limit).map (lockedView s))

/-! ## The merge engine (`MemoryKeeperImportExport._merge_databases`) -/

/-- Assignment `d[k] = v` on a Python dict, modelled on an association
list: any previous binding of `k` is replaced. -/
def dictInsert (d : List (String × String)) (k v : String) : List (String × String) :=
  (d.filter fun p => p.1 ≠ k) ++ [(k, v)]

/-- Python `d.get(k)` / `k in d` on the association lists built with
`dictInsert` (keys are unique, so `find?` is the lookup). -/
def dictLookup (d : List (String × String)) (k : String) : Option String :=
  (d.find? fun p => p.1 = k).map (·.2)

/-- The dict comprehension
`existing_categories = row-name -> row-id over the local categories`. -/
def existingCategoryDict (L : Store) : List (String × String) :=
  L.categories.foldl (fun d c => dictInsert d c.name c.id) []

/-- The category-import loop of `_merge_databases`: for each imported
category, map its id to the like-named existing local category if there is
one, otherwise `INSERT OR IGNORE` it under its original id and map the id to
itself.  Returns the updated local `categories` table and the
`old id -> local id` mapping. -/
def mergeCategories (L E : Store) : List Category × List (String × String) :=
  E.categories.foldl
    (fun acc c =>
      match dictLookup (existingCategoryDict L) c.name with
      | some localId => (acc.1, dictInsert acc.2 c.id localId)
      | none => (insertOrIgnoreCategory acc.1 c, dictInsert acc.2 c.id c.id))
    (L.categories, [])

/-- `if memory_dict['category'] in category_mapping: ... = mapping[...]`:
a `None` category is never a dict key and passes through unchanged. -/
def remapCategory (mapping : List (String × String)) (cat : Option String) :
    Option String :=
  match cat with
  | none => none
  | some c =>
    match dictLookup mapping c with
    | some v => some v
    | none => some c

/-- The memory-import loop: skip memories whose id is already local,
otherwise rewrite the category through the mapping and insert the row
verbatim, counting the inserts. -/
def mergeMemoriesStep (existingIds : List String) (mapping : List (String × String))
    (acc : List Memory × Nat) (m : Memory) : Except String (List Memory × Nat) :=
  if m.id ∈ existingIds then
    .ok acc
  else do
    let rows ← insertMemoryRow acc.1 { m with category := remapCategory mapping m.category }
    .ok (rows, acc.2 + 1)

/-- `[m['id'] for m in memories if m['id'] not in existing_memory_ids]` —
the ids whose tags and responses are copied. -/
def mergeNewIds (existingIds : List String) (E : Store) : List String :=
  (E.memories.filter fun m => m.id ∉ existingIds).map (·.id)

/-- The tag-copy loop: for each freshly imported memory id, insert each of
its imported tag rows into the local table. -/
def mergeTags (E : Store) (newIds : List String) (rows : List TagRow) :
    Except String (List TagRow) :=
  newIds.foldlM
    (fun acc mid =>
      (E.memory_tags.filter fun t => t.memory_id = mid).foldlM
        (fun acc2 t => insertTagRow acc2 ⟨mid, t.tag⟩) acc)
    rows

/-- The response-copy loop: for each freshly imported memory id, insert each
of its imported responses (id, content, date, mood carried verbatim). -/
def mergeResponses (E : Store) (newIds : List String) (rows : List ResponseRow) :
    Except String (List ResponseRow) :=
  newIds.foldlM
    (fun acc mid =>
      (E.responses.filter fun r => r.memory_id = mid).foldlM
        (fun acc2 r => insertResponseRow acc2 ⟨r.id, mid, r.response_content,
          r.response_date, r.response_mood⟩) acc)
    rows

/-- The try-block of `_merge_databases` up to (but excluding)
`current_conn.commit()`: categories, then memories, then tags, then
responses, all on one uncommitted connection over the local store. -/
def merge_run (L E : Store) : Except String (Store × Nat) := do
  let cm := mergeCategories L E
  let existingIds := L.memories.map (·.id)
  let mc ← E.memories.foldlM (mergeMemoriesStep existingIds cm.2) (L.memories, 0)
  let tags ← mergeTags E (mergeNewIds existingIds E) L.memory_tags
  let resps ← mergeResponses E (mergeNewIds existingIds E) L.responses
  .ok ({ memories := mc.1, memory_tags := tags, responses := resps,
         categories := cm.1 }, mc.2)

/-- `MemoryKeeperImportExport._merge_databases`: commit on success; on any
exception roll the local store back to its pre-merge state and re-raise the
error.  Returns the local store after the call together with the outcome
(imported count, or the propagated error). -/
def merge_databases (L E : Store) : Store × Except String Nat :=
  match merge_run L E with
  | .ok (s, n) => (s, .ok n)
  | .error e => (L, .error e)

/-! ## The operations of the core, as a step relation for the lifecycle
invariant.  The read-only queries (`get_memory_by_id`,
`get_locked_memories`, `get_unlockable_memories`, ...) execute only SELECT
statements and are included as explicit no-write steps. -/

/-- One invocation of a core operation (write paths carry the generated
ids / clock values as data). -/
inductive Op
  | create (memory_id : String) (now : Nat) (title : String) (content : Option String)
      (unlock_date : Nat) (category : Option String) (tags : List String)
      (media_path : Option String) (mood : Option String) (importance : Int)
      (unlock_type : String)
  | unlock (memory_id : String)
  | respond (response_id : String) (now : Nat) (memory_id : String)
      (response_content : String) (mood : Option String)
  | delete (memory_id : String)
  | merge (external : Store)
  | queryById (memory_id : String)
  | queryLocked (category_id : Option String) (sort_field : SortField)
      (sort_order : SortOrder) (search_text : String) (limit : Nat)
  | queryUnlockable (now : Nat)

/-- The store after running one operation (queries read and change
nothing). -/
def applyOp (s : Store) : Op → Store
  | .create memory_id now title content unlock_date category tags media_path mood
      importance unlock_type =>
    (create_memory s memory_id now title content unlock_date category tags
      media_path mood importance unlock_type).1
  | .unlock memory_id => (unlock_memory s memory_id).1
  | .respond response_id now memory_id response_content mood =>
    (add_response s response_id now memory_id response_content mood).1
  | .delete memory_id => (delete_memory s memory_id).1
  | .merge external => (merge_databases s external).1
  | .queryById _ => s
  | .queryLocked _ _ _ _ _ => s
  | .queryUnlockable _ => s

/-! ## Concrete sample stores (used for scenario claims and witnesses) -/

/-- Spec filter-correctness scenario: locked memory A, "Birthday Letter",
category Letter. -/
def memoryA : Memory :=
  { id := "A", title := "Birthday Letter", content := some "Dear future me",
    media_path := none, created_date := 1, unlock_date := 10, unlock_type := "date",
    unlock_conditions := none, is_unlocked := false, category := some "cat-letter",
    mood := none, importance := 3 }

/-- Spec filter-correctness scenario: locked memory B, "Random Note",
category Milestone. -/
def memoryB : Memory :=
  { id := "B", title := "Random Note", content := some "a note", media_path := none,
    created_date := 2, unlock_date := 11, unlock_type := "date",
    unlock_conditions := none, is_unlocked := false, category := some "cat-milestone",
    mood := none, importance := 3 }

/-- Spec filter-correctness scenario store: A tagged "family", B tagged
"work". -/
def scenarioStore : Store :=
  { memories := [memoryA, memoryB],
    memory_tags := [⟨"A", "family"⟩, ⟨"B", "work"⟩],
    responses := [], categories := defaultCategories }

/-- Wildcard-search example: one locked memory titled "abc" with no tags
(the `_` LIKE wildcard in a search text makes the query match it although
the title does not contain the search text literally). -/
def wildcardMemory : Memory :=
  { id := "w", title := "abc", content := none, media_path := none,
    created_date := 1, unlock_date := 9, unlock_type := "date",
    unlock_conditions := none, is_unlocked := false, category := none,
    mood := none, importance := 3 }

/-- Store holding only `wildcardMemory`. -/
def wildcardStore : Store :=
  { memories := [wildcardMemory], memory_tags := [], responses := [],
    categories := [] }

/-- A store holding one already-unlocked memory, id `u1`. -/
def unlockedSample : Store :=
  { memories := [{ memoryA with id := "u1", is_unlocked := true }],
    memory_tags := [], responses := [], categories := defaultCategories }

/-- Merge example, local side: one memory `m1` carrying response `r1`. -/
def mergeLocal : Store :=
  { memories := [{ memoryA with id := "m1" }], memory_tags := [],
    responses := [⟨"r1", "m1", "so true", 12, none⟩],
    categories := defaultCategories }

/-- Merge example, external side: a new memory `m2` with a tag and a
response, one unseen category and one category name that already exists
locally. -/
def mergeImport : Store :=
  { memories := [{ memoryA with id := "m2" }], memory_tags := [⟨"m2", "travel"⟩],
    responses := [⟨"r2", "m2", "loved it", 12, none⟩],
    categories := [⟨"cat-custom", "Custom", none, none⟩,
                   ⟨"cat-milestone-2", "Milestone", none, none⟩] }

/-- Merge example, failing external side: its new memory `m3` carries a
response whose id `r1` already exists locally, so the response copy step
raises. -/
def mergeConflict : Store :=
  { memories := [{ memoryA with id := "m3" }], memory_tags := [],
    responses := [⟨"r1", "m3", "clash", 12, none⟩], categories := [] }

/-! ## Helper lemmas: row inserts -/

/-- The error message of a `memory_tags` primary-key violation. -/
def tagUniqueError : String :=
  "UNIQUE constraint failed: memory_tags.memory_id, memory_tags.tag"

theorem insertMemoryRow_ok {rows : List Memory} {m : Memory}
    (h : ∀ m0 ∈ rows, m0.id ≠ m.id) :
    insertMemoryRow rows m = .ok (rows ++ [m]) := by
  unfold insertMemoryRow
  rw [if_neg]
  rintro ⟨m0, hm0, he⟩
  exact h m0 hm0 he

theorem insertMemoryRow_ok_inv {rows out : List Memory} {m : Memory}
    (h : insertMemoryRow rows m = .ok out) :
    out = rows ++ [m] ∧ ∀ m0 ∈ rows, m0.id ≠ m.id := by
  unfold insertMemoryRow at h
  split at h
  · cases h
  · next hne =>
    cases h
    exact ⟨rfl, fun m0 hm0 he => hne ⟨m0, hm0, he⟩⟩

theorem insertTagRow_ok {rows : List TagRow} {r : TagRow}
    (h : ∀ r0 ∈ rows, ¬(r0.memory_id = r.memory_id ∧ r0.tag = r.tag)) :
    insertTagRow rows r = .ok (rows ++ [r]) := by
  unfold insertTagRow
  rw [if_neg]
  rintro ⟨r0, hr0, he⟩
  exact h r0 hr0 he

theorem insertResponseRow_ok {rows : List ResponseRow} {r : ResponseRow}
    (h : ∀ r0 ∈ rows, r0.id ≠ r.id) :
    insertResponseRow rows r = .ok (rows ++ [r]) := by
  unfold insertResponseRow
  rw [if_neg]
  rintro ⟨r0, hr0, he⟩
  exact h r0 hr0 he

/-- The tag loop on a table with no rows for `mid` and `done` already
inserted: succeeds exactly when no duplicate arises. -/
theorem insertTagRows_go (mid : String) (tags : List String) :
    ∀ (done : List String) (base : List TagRow),
      (∀ r ∈ base, r.memory_id ≠ mid) → done.Nodup →
      tags.foldlM (fun acc t => insertTagRow acc (mkTagRow mid t))
          (base ++ done.map (mkTagRow mid)) =
        if (done ++ tags).Nodup then
          .ok (base ++ (done ++ tags).map (mkTagRow mid))
        else .error tagUniqueError := by
  induction tags with
  | nil =>
    intro done base _ hdone
    simp [hdone, pure, Except.pure]
  | cons t ts ih =>
    intro done base hbase hdone
    by_cases ht : t ∈ done
    · have hconf : insertTagRow (base ++ done.map (mkTagRow mid)) (mkTagRow mid t) =
          .error tagUniqueError := by
        unfold insertTagRow
        rw [if_pos]
        · rfl
        · exact ⟨mkTagRow mid t, List.mem_append_right _ (List.mem_map_of_mem _ ht), rfl, rfl⟩
      have hnd : ¬ (done ++ t :: ts).Nodup := by
        intro hnd
        rcases List.nodup_append.mp hnd with ⟨_, _, hdisj⟩
        exact hdisj ht (List.mem_cons_self t ts)
      simp [List.foldlM_cons, hconf, hnd, bind, Except.bind]
    · have hok : insertTagRow (base ++ done.map (mkTagRow mid)) (mkTagRow mid t) =
          .ok ((base ++ done.map (mkTagRow mid)) ++ [mkTagRow mid t]) := by
        apply insertTagRow_ok
        intro r0 hr0 hconf
        rcases List.mem_append.mp hr0 with hb | hd
        · exact hbase r0 hb hconf.1
        · rcases List.mem_map.mp hd with ⟨u, hu, rfl⟩
          cases hconf.2
          exact ht hu
      have hrw : (base ++ done.map (mkTagRow mid)) ++ [mkTagRow mid t] =
          base ++ (done ++ [t]).map (mkTagRow mid) := by
        simp [List.append_assoc]
      have hnd' : (done ++ [t]).Nodup := by
        refine List.nodup_append.mpr ⟨hdone, List.nodup_singleton t, ?_⟩
        intro x hx hx'
        rcases List.mem_singleton.mp hx' with rfl
        exact ht hx
      have := ih (done ++ [t]) base hbase hnd'
      rw [List.foldlM_cons, hok, hrw]
      simpa [List.append_assoc] using this

/-- `create_memory`'s tag loop on a table with no rows for `mid`. -/
theorem insertTagRows_spec (base : List TagRow) (mid : String) (tags : List String)
    (hbase : ∀ r ∈ base, r.memory_id ≠ mid) :
    insertTagRows base mid tags =
      if tags.Nodup then .ok (base ++ tags.map (mkTagRow mid))
      else .error tagUniqueError := by
  have := insertTagRows_go mid tags [] base hbase List.nodup_nil
  simpa [insertTagRows] using this

/-! ## Helper lemmas: `create_memory` -/

/-- The memory row `create_memory` inserts. -/
def createdRow (memory_id : String) (now : Nat) (title : String)
    (content : Option String) (unlock_date : Nat) (category : Option String)
    (media_path : Option String) (mood : Option String) (importance : Int)
    (unlock_type : String) : Memory :=
  { id := memory_id, title := title, content := content, media_path := media_path,
    created_date := now, unlock_date := unlock_date, unlock_type := unlock_type,
    unlock_conditions := if unlock_type ≠ "date" then some unlock_type else none,
    is_unlocked := false, category := category, mood := mood,
    importance := importance }

/-- Successful `create_memory`: a fresh id, no stray tag rows under it, and
duplicate-free tags give exactly one new memory row and its tag rows. -/
theorem create_memory_ok (s : Store) (memory_id : String) (now : Nat) (title : String)
    (content : Option String) (unlock_date : Nat) (category : Option String)
    (tags : List String) (media_path : Option String) (mood : Option String)
    (importance : Int) (unlock_type : String)
    (hid : ∀ m ∈ s.memories, m.id ≠ memory_id)
    (htag : ∀ r ∈ s.memory_tags, r.memory_id ≠ memory_id)
    (hnodup : tags.Nodup) :
    create_memory s memory_id now title content unlock_date category tags
        media_path mood importance unlock_type =
      ({ s with
          memories := s.memories ++
            [createdRow memory_id now title content unlock_date category
              media_path mood importance unlock_type],
          memory_tags := s.memory_tags ++ tags.map (mkTagRow memory_id) },
       .ok memory_id) := by
  have h1 : insertMemoryRow s.memories (createdRow memory_id now title content
      unlock_date category media_path mood importance unlock_type) =
      .ok (s.memories ++ [createdRow memory_id now title content unlock_date
        category media_path mood importance unlock_type]) :=
    insertMemoryRow_ok hid
  have h2 := insertTagRows_spec s.memory_tags memory_id tags htag
  rw [if_pos hnodup] at h2
  unfold create_memory create_memory_run
  simp only [createdRow, ne_eq, ite_not] at h1
  simp [h1, h2, bind, Except.bind, ne_eq, ite_not, createdRow]

/-- `create_memory` with a duplicated tag raises the `memory_tags`
uniqueness error and leaves the store unchanged. -/
theorem create_memory_dup_tag (s : Store) (memory_id : String) (now : Nat)
    (title : String) (content : Option String) (unlock_date : Nat)
    (category : Option String) (tags : List String) (media_path : Option String)
    (mood : Option String) (importance : Int) (unlock_type : String)
    (hid : ∀ m ∈ s.memories, m.id ≠ memory_id)
    (htag : ∀ r ∈ s.memory_tags, r.memory_id ≠ memory_id)
    (hdup : ¬ tags.Nodup) :
    create_memory s memory_id now title content unlock_date category tags
        media_path mood importance unlock_type = (s, .error tagUniqueError) := by
  have h1 : insertMemoryRow s.memories (createdRow memory_id now title content
      unlock_date category media_path mood importance unlock_type) =
      .ok (s.memories ++ [createdRow memory_id now title content unlock_date
        category media_path mood importance unlock_type]) :=
    insertMemoryRow_ok hid
  have h2 := insertTagRows_spec s.memory_tags memory_id tags htag
  rw [if_neg hdup] at h2
  unfold create_memory create_memory_run
  simp only [createdRow, ne_eq, ite_not] at h1
  simp [h1, h2, bind, Except.bind, ne_eq, ite_not]

/-- Inversion of a successful `create_memory`: the id was fresh and exactly
one memory row (locked, with the given fields) was appended. -/
theorem create_memory_ok_inv (s : Store) (memory_id : String) (now : Nat)
    (title : String) (content : Option String) (unlock_date : Nat)
    (category : Option String) (tags : List String) (media_path : Option String)
    (mood : Option String) (importance : Int) (unlock_type : String)
    (s' : Store) (rid : String)
    (h : create_memory s memory_id now title content unlock_date category tags
        media_path mood importance unlock_type = (s', .ok rid)) :
    rid = memory_id ∧ (∀ m ∈ s.memories, m.id ≠ memory_id) ∧
      s'.memories = s.memories ++
        [createdRow memory_id now title content unlock_date category
          media_path mood importance unlock_type] := by
  unfold create_memory create_memory_run at h
  simp only [bind, Except.bind] at h
  rcases hrow : insertMemoryRow s.memories (createdRow memory_id now title content
      unlock_date category media_path mood importance unlock_type) with e | mems
  · rw [show insertMemoryRow s.memories
        { id := memory_id, title := title, content := content, media_path := media_path,
          created_date := now, unlock_date := unlock_date, unlock_type := unlock_type,
          unlock_conditions := if unlock_type ≠ "date" then some unlock_type else none,
          is_unlocked := false, category := category, mood := mood,
          importance := importance } = .error e from hrow] at h
    simp at h
  · rw [show insertMemoryRow s.memories
        { id := memory_id, title := title, content := content, media_path := media_path,
          created_date := now, unlock_date := unlock_date, unlock_type := unlock_type,
          unlock_conditions := if unlock_type ≠ "date" then some unlock_type else none,
          is_unlocked := false, category := category, mood := mood,
          importance := importance } = .ok mems from hrow] at h
    rcases insertMemoryRow_ok_inv hrow with ⟨rfl, hfresh⟩
    rcases htags : insertTagRows s.memory_tags memory_id tags with e | tagRows
    · rw [htags] at h
      simp at h
    · rw [htags] at h
      simp at h
      refine ⟨h.2.symm, hfresh, ?_⟩
      rw [← h.1]

/-! ## Helper lemmas: the merge engine -/

/-- The category rewrite applied to each imported memory. -/
def mergeRewrite (mapping : List (String × String)) (m : Memory) : Memory :=
  { m with category := remapCategory mapping m.category }

/-- A successful run of the memory-import loop appends exactly the imported
memories whose ids are not yet local, category-rewritten, and counts them. -/
theorem mergeMemories_fold_ok (existingIds : List String)
    (mapping : List (String × String)) :
    ∀ (l : List Memory) (mems : List Memory) (cnt : Nat) (mems' : List Memory)
      (cnt' : Nat),
      l.foldlM (mergeMemoriesStep existingIds mapping) (mems, cnt) = .ok (mems', cnt') →
      mems' = mems ++ (l.filter fun m => m.id ∉ existingIds).map (mergeRewrite mapping)
        ∧ cnt' = cnt + (l.filter fun m => m.id ∉ existingIds).length := by
  intro l
  induction l with
  | nil =>
    intro mems cnt mems' cnt' h
    simp only [List.foldlM_nil, pure, Except.pure, Except.ok.injEq] at h
    cases h
    simp
  | cons m ms ih =>
    intro mems cnt mems' cnt' h
    rw [List.foldlM_cons] at h
    by_cases hmem : m.id ∈ existingIds
    · have hstep : mergeMemoriesStep existingIds mapping (mems, cnt) m = .ok (mems, cnt) := by
        unfold mergeMemoriesStep
        rw [if_pos hmem]
      rw [hstep] at h
      simp only [bind, Except.bind] at h
      have := ih mems cnt mems' cnt' h
      simpa [List.filter_cons, hmem] using this
    · rcases hrow : insertMemoryRow mems (mergeRewrite mapping m) with e | rows
      · have hstep : mergeMemoriesStep existingIds mapping (mems, cnt) m = .error e := by
          unfold mergeMemoriesStep
          rw [if_neg hmem]
          simp only [mergeRewrite] at hrow
          simp [hrow, bind, Except.bind]
        rw [hstep] at h
        simp [bind, Except.bind] at h
      · have hstep : mergeMemoriesStep existingIds mapping (mems, cnt) m =
            .ok (rows, cnt + 1) := by
          unfold mergeMemoriesStep
          rw [if_neg hmem]
          simp only [mergeRewrite] at hrow
          simp [hrow, bind, Except.bind, pure, Except.pure]
        rw [hstep] at h
        simp only [bind, Except.bind] at h
        rcases insertMemoryRow_ok_inv hrow with ⟨rfl, -⟩
        rcases ih _ _ mems' cnt' h with ⟨h1, h2⟩
        constructor
        · rw [h1, List.filter_cons, if_pos (by simpa using hmem)]
          simp [List.append_assoc]
        · rw [h2, List.filter_cons, if_pos (by simpa using hmem)]
          simp [Nat.add_comm, Nat.add_assoc, Nat.add_left_comm]
  
/-- When every imported memory id is already local the import loop is a
no-op. -/
theorem mergeMemories_fold_skip (existingIds : List String)
    (mapping : List (String × String)) (l : List Memory)
    (h : ∀ m ∈ l, m.id ∈ existingIds) :
    ∀ (mems : List Memory) (cnt : Nat),
      l.foldlM (mergeMemoriesStep existingIds mapping) (mems, cnt) = .ok (mems, cnt) := by
  induction l with
  | nil => intro mems cnt; simp [pure, Except.pure]
  | cons m ms ih =>
    intro mems cnt
    have hstep : mergeMemoriesStep existingIds mapping (mems, cnt) m = .ok (mems, cnt) := by
      unfold mergeMemoriesStep
      rw [if_pos (h m (List.mem_cons_self m ms))]
    rw [List.foldlM_cons, hstep]
    simp only [bind, Except.bind]
    exact ih (fun m hm => h m (List.mem_cons.mpr (Or.inr hm))) mems cnt

/-- Inversion of a successful merge run: the local memories are extended by
exactly the imported ones whose ids were absent, category-rewritten, and the
returned count is their number. -/
theorem merge_run_ok_inv (L E : Store) (s : Store) (n : Nat)
    (h : merge_run L E = .ok (s, n)) :
    s.memories = L.memories ++
      ((E.memories.filter fun m => m.id ∉ L.memories.map (·.id)).map
        (mergeRewrite (mergeCategories L E).2))
    ∧ n = (E.memories.filter fun m => m.id ∉ L.memories.map (·.id)).length := by
  unfold merge_run at h
  simp only [bind, Except.bind] at h
  rcases hfold : E.memories.foldlM
      (mergeMemoriesStep (L.memories.map (·.id)) (mergeCategories L E).2)
      (L.memories, 0) with e | mc
  · rw [hfold] at h
    simp at h
  · rw [hfold] at h
    rcases htags : mergeTags E (mergeNewIds (L.memories.map (·.id)) E) L.memory_tags
        with e | tagRows
    · rw [htags] at h
      simp at h
    · rw [htags] at h
      rcases hresp : mergeResponses E (mergeNewIds (L.memories.map (·.id)) E) L.responses
          with e | respRows
      · rw [hresp] at h
        simp at h
      · rw [hresp] at h
        simp only [pure, Except.pure, Except.ok.injEq, Prod.mk.injEq] at h
        rcases mergeMemories_fold_ok (L.memories.map (·.id)) (mergeCategories L E).2
            E.memories L.memories 0 mc.1 mc.2 (by rw [hfold]) with ⟨h1, h2⟩
        rcases h with ⟨hs, hn⟩
        constructor
        · rw [← hs]
          exact h1
        · rw [← hn, h2, Nat.zero_add]

/-- When every imported memory id is already local, a merge run succeeds,
changes neither memories, tags, nor responses, and counts zero imports. -/
theorem merge_run_all_local (L E : Store)
    (h : ∀ m ∈ E.memories, m.id ∈ L.memories.map (·.id)) :
    merge_run L E =
      .ok ({ memories := L.memories, memory_tags := L.memory_tags,
             responses := L.responses, categories := (mergeCategories L E).1 }, 0) := by
  have hskip := mergeMemories_fold_skip (L.memories.map (·.id))
    (mergeCategories L E).2 E.memories h L.memories 0
  have hnew : mergeNewIds (L.memories.map (·.id)) E = [] := by
    unfold mergeNewIds
    rw [show (E.memories.filter fun m => m.id ∉ L.memories.map (·.id)) = [] from ?_]
    · rfl
    · rw [List.filter_eq_nil_iff]
      intro m hm
      simp [h m hm]
  unfold merge_run
  dsimp only
  rw [hskip, hnew]
  simp [mergeTags, mergeResponses, bind, Except.bind, pure, Except.pure]

/-! ## Helper lemmas: the locked-memory browse query -/

/-- The WHERE clause of the browse query, spelled out as a proposition. -/
theorem lockedPass_iff (s : Store) (category_id : Option String)
    (search_text : String) (m : Memory) :
    lockedPass s category_id search_text m = true ↔
      m.is_unlocked = false
      ∧ (∀ c, category_id = some c → c ≠ "" → m.category = some c)
      ∧ (search_text ≠ "" →
          likeContains m.title search_text = true
          ∨ ∃ t ∈ s.memory_tags, t.memory_id = m.id
              ∧ likeContains t.tag search_text = true) := by
  unfold lockedPass
  cases category_id with
  | none =>
    simp [List.any_eq_true, String.isEmpty_iff, and_assoc]
    tauto
  | some c =>
    by_cases hc : c = ""
    · subst hc
      simp [List.any_eq_true, String.isEmpty_iff, and_assoc]
      tauto
    · simp [List.any_eq_true, String.isEmpty_iff, hc, and_assoc]
      tauto

/-- Membership in the browse query's result, provided the matching rows fit
inside `limit` (so `LIMIT` truncates nothing). -/
theorem locked_query_mem (s : Store) (category_id : Option String)
    (sort_field : SortField) (sort_order : SortOrder) (search_text : String)
    (limit : Nat)
    (hlim : (s.memories.filter (lockedPass s category_id search_text)).length ≤ limit) :
    ∀ v, v ∈ get_locked_memories s category_id sort_field sort_order search_text limit ↔
      ∃ m ∈ s.memories, lockedPass s category_id search_text m = true
        ∧ v = lockedView s m := by
  intro v
  unfold get_locked_memories
  rw [List.take_of_length_le (by rw [List.length_mergeSort]; exact hlim)]
  simp only [List.mem_map, List.mem_mergeSort, List.mem_filter]
  constructor
  · rintro ⟨m, ⟨hm, hp⟩, rfl⟩
    exact ⟨m, hm, hp, rfl⟩
  · rintro ⟨m, hm, hp, rfl⟩
    exact ⟨m, ⟨hm, hp⟩, rfl⟩

/-- A trailing `%` pattern matches everything. -/
theorem likeAny_empty_pattern : ∀ l, likeAny (fun x : List Char => x.isEmpty) l = true := by
  intro l
  induction l with
  | nil => rfl
  | cons c hs ih => simp [likeAny, ih]

theorem charsStartWith_nil (p : List Char) : charsStartWith p [] = p.isEmpty := by
  cases p <;> rfl

/-- A wildcard-free pattern followed by `%` matches `t` exactly when the
pattern is a literal prefix of `t`. -/
theorem likeChars_prefix_eq : ∀ (p : List Char), '%' ∉ p → '_' ∉ p →
    ∀ t, likeChars (p ++ ['%']) t = charsStartWith p t := by
  intro p
  induction p with
  | nil =>
    intro _ _ t
    simp [likeChars, charsStartWith, likeAny_empty_pattern t]
  | cons a p' ih =>
    intro hp1 hp2 t
    have ha1 : ¬ a = '%' := by
      intro h
      exact hp1 (by rw [← h]; exact List.mem_cons_self a p')
    have ha2 : ¬ a = '_' := by
      intro h
      exact hp2 (by rw [← h]; exact List.mem_cons_self a p')
    have hp1' : '%' ∉ p' := fun h => hp1 (List.mem_cons.mpr (Or.inr h))
    have hp2' : '_' ∉ p' := fun h => hp2 (List.mem_cons.mpr (Or.inr h))
    cases t with
    | nil => simp [likeChars, charsStartWith, ha1]
    | cons h hs =>
      simp only [List.cons_append, likeChars, if_neg ha1, charsStartWith]
      simp [ha2, ih hp1' hp2' hs]

theorem likeAny_congr (f g : List Char → Bool) (h : ∀ l, f l = g l) :
    ∀ l, likeAny f l = likeAny g l := by
  intro l
  induction l with
  | nil => simp [likeAny, h]
  | cons c hs ih => simp [likeAny, h, ih]

/-- Trying a wildcard-free prefix match at every suffix is literal substring
containment. -/
theorem likeAny_startWith (p : List Char) :
    ∀ l, likeAny (charsStartWith p) l = charsContain p l := by
  intro l
  induction l with
  | nil => simp [likeAny, charsContain, charsStartWith_nil]
  | cons c hs ih => simp [likeAny, charsContain, ih]

/-- On search text free of the LIKE wildcard characters, the query's LIKE
match coincides with the spec's literal substring containment. -/
theorem likeContains_eq_specContains (hay pat : String)
    (h1 : '%' ∉ pat.toList.map Char.toLower)
    (h2 : '_' ∉ pat.toList.map Char.toLower) :
    likeContains hay pat = specContains hay pat := by
  unfold likeContains specContains
  have e1 : likeChars ('%' :: (pat.toList.map Char.toLower ++ ['%']))
      (hay.toList.map Char.toLower)
      = likeAny (likeChars (pat.toList.map Char.toLower ++ ['%']))
        (hay.toList.map Char.toLower) := by
    simp [likeChars]
  rw [e1,
    likeAny_congr _ _ (likeChars_prefix_eq (pat.toList.map Char.toLower) h1 h2)
      (hay.toList.map Char.toLower),
    likeAny_startWith]

/-! ## Claims -/

/-- C4: if any step of the merge raises an error, every change made by that
merge is rolled back — the local store after the call equals its state from
before the merge began — and the error propagates to the caller. -/
theorem merge_rollback_on_error : ∀ (L E : Store) (e : String),
    (merge_databases L E).2 = .error e → merge_databases L E = (L, .error e) := by
  intro L E e h
  unfold merge_databases at h ⊢
  rcases hm : merge_run L E with e' | ⟨s2, n2⟩ <;> rw [hm] at h
  · have h' : (Except.error e' : Except String Nat) = .error e := h
    injection h' with he
    subst he
    rfl
  · exact Except.noConfusion (h : (Except.ok n2 : Except String Nat) = .error e)

/-- Witness for C4: a concrete merge whose response copy collides on a
response id is rolled back whole and reports the error. -/
theorem merge_rollback_on_error_witness :
    merge_databases mergeLocal mergeConflict =
      (mergeLocal, .error "UNIQUE constraint failed: responses.id") :=
  merge_rollback_on_error mergeLocal mergeConflict
    "UNIQUE constraint failed: responses.id" (by rfl)

/-- C2 counterexample: the store has no memory with id `ghost`, yet
`add_response` for `ghost` succeeds and inserts a row — the claim that it
fails with an integrity error and leaves the responses table unchanged is
false on the code (the connection never enables SQLite foreign-key
enforcement). -/
theorem add_response_orphan_counterexample :
    (∀ m ∈ initStore.memories, m.id ≠ "ghost")
    ∧ (add_response initStore "r1" 7 "ghost" "hello" none).2 = .ok "r1"
    ∧ (add_response initStore "r1" 7 "ghost" "hello" none).1.responses =
        [⟨"r1", "ghost", "hello", 7, none⟩] :=
  ⟨by decide, by rfl, by rfl⟩

/-- C2 (amended): for every memory_id that does not reference an existing
memory row (and a fresh response id), `add_response` succeeds and appends
exactly one orphan response row — the declared foreign key is not enforced
at runtime, so referential integrity is not checked at write time. -/
theorem add_response_orphan_inserted : ∀ (s : Store) (response_id : String)
    (now : Nat) (memory_id : String) (response_content : String)
    (mood : Option String),
    (∀ m ∈ s.memories, m.id ≠ memory_id) →
    (∀ r ∈ s.responses, r.id ≠ response_id) →
    add_response s response_id now memory_id response_content mood =
      ({ s with responses := s.responses ++
          [⟨response_id, memory_id, response_content, now, mood⟩] },
       .ok response_id) := by
  intro s response_id now memory_id response_content mood hmem hresp
  unfold add_response
  rw [insertResponseRow_ok hresp]

/-- Witness for the amended C2 at a concrete orphan insert. -/
theorem add_response_orphan_inserted_witness :
    add_response initStore "r1" 7 "ghost" "hello" none =
      ({ initStore with responses := initStore.responses ++
          [⟨"r1", "ghost", "hello", 7, none⟩] }, .ok "r1") :=
  add_response_orphan_inserted initStore "r1" 7 "ghost" "hello" none
    (by decide) (by decide)

/-- C9 counterexample: `create_memory` with an empty-string title succeeds
and persists the memory row — the claim that it fails before persisting
anything is false on the code (the store performs no title validation and
SQL `NOT NULL` rejects only NULL, not the empty string). -/
theorem empty_title_counterexample :
    (create_memory initStore "m1" 0 "" (some "body") 5 none [] none none 3 "date").2 =
        .ok "m1"
    ∧ (create_memory initStore "m1" 0 "" (some "body") 5 none [] none none 3
        "date").1.memories.map (·.title) = [""] :=
  ⟨by rfl, by rfl⟩

/-- C9 (amended): `create_memory` with an empty-string title does not fail;
with a fresh id and duplicate-free tags it persists the memory row (titled
`""`) and its tag rows like any other creation. -/
theorem empty_title_persisted : ∀ (s : Store) (memory_id : String) (now : Nat)
    (content : Option String) (unlock_date : Nat) (category : Option String)
    (tags : List String) (media_path : Option String) (mood : Option String)
    (importance : Int) (unlock_type : String),
    (∀ m ∈ s.memories, m.id ≠ memory_id) →
    (∀ r ∈ s.memory_tags, r.memory_id ≠ memory_id) →
    tags.Nodup →
    create_memory s memory_id now "" content unlock_date category tags
        media_path mood importance unlock_type =
      ({ s with
          memories := s.memories ++
            [createdRow memory_id now "" content unlock_date category
              media_path mood importance unlock_type],
          memory_tags := s.memory_tags ++ tags.map (mkTagRow memory_id) },
       .ok memory_id) :=
  fun s memory_id now content unlock_date category tags media_path mood importance
      unlock_type hid htag hnodup =>
    create_memory_ok s memory_id now "" content unlock_date category tags
      media_path mood importance unlock_type hid htag hnodup

/-- Witness for the amended C9 at a concrete empty-title creation. -/
theorem empty_title_persisted_witness :
    create_memory initStore "m1" 0 "" (some "body") 5 none ["x"] none none 3 "date" =
      ({ initStore with
          memories := initStore.memories ++
            [createdRow "m1" 0 "" (some "body") 5 none none none 3 "date"],
          memory_tags := initStore.memory_tags ++ ["x"].map (mkTagRow "m1") },
       .ok "m1") :=
  empty_title_persisted initStore "m1" 0 (some "body") 5 none ["x"] none none 3
    "date" (by decide) (by decide) (by decide)

/-- C10: `create_memory` whose tag list repeats a tag raises the
`memory_tags` per-memory uniqueness error and commits nothing — neither the
memory row nor any tag row is persisted and the store is unchanged. -/
theorem duplicate_tag_rejected : ∀ (s : Store) (memory_id : String) (now : Nat)
    (title : String) (content : Option String) (unlock_date : Nat)
    (category : Option String) (tags : List String) (media_path : Option String)
    (mood : Option String) (importance : Int) (unlock_type : String),
    (∀ m ∈ s.memories, m.id ≠ memory_id) →
    (∀ r ∈ s.memory_tags, r.memory_id ≠ memory_id) →
    ¬ tags.Nodup →
    create_memory s memory_id now title content unlock_date category tags
        media_path mood importance unlock_type = (s, .error tagUniqueError) :=
  fun s memory_id now title content unlock_date category tags media_path mood
      importance unlock_type hid htag hdup =>
    create_memory_dup_tag s memory_id now title content unlock_date category tags
      media_path mood importance unlock_type hid htag hdup

/-- Witness for C10 at a concrete duplicated tag list. -/
theorem duplicate_tag_rejected_witness :
    create_memory initStore "m1" 0 "Trip" (some "body") 5 none ["x", "x"] none
        none 3 "date" = (initStore, .error tagUniqueError) :=
  duplicate_tag_rejected initStore "m1" 0 "Trip" (some "body") 5 none ["x", "x"]
    none none 3 "date" (by decide) (by decide) (by decide)

/-- C6 counterexample: two creations differing only in `unlock_type`
(`date` vs `random`) store different `unlock_type` values, yet
`get_memory_by_id` returns identical records for both — its SELECT omits
`unlock_type`, so the round-trip cannot recover that field, contrary to the
claim's field set. -/
theorem roundtrip_unlock_type_counterexample :
    get_memory_by_id (create_memory initStore "m1" 0 "Trip" (some "body") 5 none
        [] none none 3 "date").1 "m1"
      = get_memory_by_id (create_memory initStore "m1" 0 "Trip" (some "body") 5
          none [] none none 3 "random").1 "m1"
    ∧ (create_memory initStore "m1" 0 "Trip" (some "body") 5 none [] none none 3
        "date").1.memories.map (·.unlock_type)
      ≠ (create_memory initStore "m1" 0 "Trip" (some "body") 5 none [] none none
          3 "random").1.memories.map (·.unlock_type) :=
  ⟨by rfl, by decide⟩

/-- C6 (amended): after `create_memory(f)` with a fresh id and
duplicate-free tags, `get_memory_by_id` returns a record whose title,
content, media_path, created_date (now), unlock_date, category, mood and
importance equal `f` and whose tag list is exactly the input tags (present
only when nonempty); `unlock_type` is not among the returned fields, since
the SELECT of `get_memory_by_id` omits it, so the round-trip holds for
every field of `f` except `unlock_type`. -/
theorem create_get_roundtrip : ∀ (s : Store) (memory_id : String) (now : Nat)
    (title : String) (content : Option String) (unlock_date : Nat)
    (category : Option String) (tags : List String) (media_path : Option String)
    (mood : Option String) (importance : Int) (unlock_type : String),
    (∀ m ∈ s.memories, m.id ≠ memory_id) →
    (∀ r ∈ s.memory_tags, r.memory_id ≠ memory_id) →
    tags.Nodup →
    get_memory_by_id
        (create_memory s memory_id now title content unlock_date category tags
          media_path mood importance unlock_type).1 memory_id =
      some { id := memory_id, title := title, content := content,
             media_path := media_path, created_date := now,
             unlock_date := unlock_date, category := category, mood := mood,
             importance := importance,
             tags := if tags.isEmpty then none else some tags } := by
  intro s memory_id now title content unlock_date category tags media_path mood
    importance unlock_type hid htag hnodup
  rw [create_memory_ok s memory_id now title content unlock_date category tags
    media_path mood importance unlock_type hid htag hnodup]
  unfold get_memory_by_id
  have h1 : s.memories.find? (fun m => decide (m.id = memory_id)) = none :=
    List.find?_eq_none.mpr (fun x hx => by simpa using hid x hx)
  have h2 : (s.memory_tags ++ tags.map (mkTagRow memory_id)).filter
      (fun t => decide (t.memory_id = memory_id)) = tags.map (mkTagRow memory_id) := by
    rw [List.filter_append]
    rw [List.filter_eq_nil_iff.mpr (fun r hr => by simpa using htag r hr)]
    rw [List.filter_eq_self.mpr ?_]
    · rfl
    · intro r hr
      rcases List.mem_map.mp hr with ⟨t, ht, rfl⟩
      simp [mkTagRow]
  simp only [List.find?_append, h1, Option.none_or]
  simp [createdRow, h2, List.map_map, Function.comp_def, mkTagRow,
    List.isEmpty_iff, List.map_eq_nil_iff]

/-- Witness for the amended C6 at a concrete creation. -/
theorem create_get_roundtrip_witness :
    get_memory_by_id (create_memory initStore "m1" 4 "Trip" (some "body") 9
        (some "cat-letter") ["sea", "sun"] none (some "happy") 5 "date").1 "m1" =
      some { id := "m1", title := "Trip", content := some "body",
             media_path := none, created_date := 4, unlock_date := 9,
             category := some "cat-letter", mood := some "happy",
             importance := 5,
             tags := if ["sea", "sun"].isEmpty then none else some ["sea", "sun"] } :=
  create_get_roundtrip initStore "m1" 4 "Trip" (some "body") 9 (some "cat-letter")
    ["sea", "sun"] none (some "happy") 5 "date" (by decide) (by decide) (by decide)

/-- C5: `delete_memory` removes, in one transaction, every response row and
every tag row referencing the id together with the memory row: afterwards
`get_memory_by_id` reports not-found and no tag or response row referencing
the id remains, while rows of other memories are preserved; the returned
Bool is true exactly when a memory with that id existed. -/
theorem delete_memory_cascades : ∀ (s : Store) (memory_id : String),
    (∀ t ∈ (delete_memory s memory_id).1.memory_tags, t.memory_id ≠ memory_id)
    ∧ (∀ r ∈ (delete_memory s memory_id).1.responses, r.memory_id ≠ memory_id)
    ∧ get_memory_by_id (delete_memory s memory_id).1 memory_id = none
    ∧ (∀ t ∈ s.memory_tags, t.memory_id ≠ memory_id →
        t ∈ (delete_memory s memory_id).1.memory_tags)
    ∧ (∀ r ∈ s.responses, r.memory_id ≠ memory_id →
        r ∈ (delete_memory s memory_id).1.responses)
    ∧ ((delete_memory s memory_id).2 = true ↔ ∃ m ∈ s.memories, m.id = memory_id) := by
  intro s memory_id
  have hfind : (delete_memory s memory_id).1.memories.find?
      (fun m => decide (m.id = memory_id)) = none := by
    rw [List.find?_eq_none]
    intro x hx
    simp only [delete_memory] at hx
    simpa using (List.mem_filter.mp hx).2
  refine ⟨?_, ?_, ?_, ?_, ?_, ?_⟩
  · intro t ht
    simp only [delete_memory] at ht
    simpa using (List.mem_filter.mp ht).2
  · intro r hr
    simp only [delete_memory] at hr
    simpa using (List.mem_filter.mp hr).2
  · unfold get_memory_by_id
    rw [hfind]
  · intro t ht hne
    simp only [delete_memory]
    exact List.mem_filter.mpr ⟨ht, by simpa using hne⟩
  · intro r hr hne
    simp only [delete_memory]
    exact List.mem_filter.mpr ⟨hr, by simpa using hne⟩
  · simp only [delete_memory, List.any_eq_true]
    simp

/-- Witness for C5: deleting the tagged, responded-to memory `m1` of a
concrete store. -/
theorem delete_memory_cascades_witness :
    (∀ t ∈ (delete_memory mergeLocal "m1").1.memory_tags, t.memory_id ≠ "m1")
    ∧ (∀ r ∈ (delete_memory mergeLocal "m1").1.responses, r.memory_id ≠ "m1")
    ∧ get_memory_by_id (delete_memory mergeLocal "m1").1 "m1" = none
    ∧ (∀ t ∈ mergeLocal.memory_tags, t.memory_id ≠ "m1" →
        t ∈ (delete_memory mergeLocal "m1").1.memory_tags)
    ∧ (∀ r ∈ mergeLocal.responses, r.memory_id ≠ "m1" →
        r ∈ (delete_memory mergeLocal "m1").1.responses)
    ∧ ((delete_memory mergeLocal "m1").2 = true ↔
        ∃ m ∈ mergeLocal.memories, m.id = "m1") :=
  delete_memory_cascades mergeLocal "m1"

/-- C3: a successful merge of external store E into local store L appends
exactly the memories of E whose ids are absent from L (category-rewritten;
memories with ids already in L are skipped, never overwritten, and L's rows
are preserved verbatim as a prefix) and returns their count; immediately
merging the same E again succeeds with count 0 and changes no memories, tag
rows, or responses. -/
theorem merge_import_idempotent : ∀ (L E L₁ : Store) (n : Nat),
    merge_databases L E = (L₁, .ok n) →
    (L₁.memories = L.memories ++
        ((E.memories.filter fun m => m.id ∉ L.memories.map (·.id)).map
          (mergeRewrite (mergeCategories L E).2))
      ∧ n = (E.memories.filter fun m => m.id ∉ L.memories.map (·.id)).length)
    ∧ ∃ L₂, merge_databases L₁ E = (L₂, .ok 0)
        ∧ L₂.memories = L₁.memories
        ∧ L₂.memory_tags = L₁.memory_tags
        ∧ L₂.responses = L₁.responses := by
  intro L E L₁ n h
  have hrun : merge_run L E = .ok (L₁, n) := by
    unfold merge_databases at h
    rcases hm : merge_run L E with e' | ⟨s2, n2⟩ <;> rw [hm] at h
    · exact Except.noConfusion
        (congrArg Prod.snd h : (Except.error e' : Except String Nat) = .ok n)
    · have h1 : s2 = L₁ := congrArg Prod.fst h
      have h2 : (Except.ok n2 : Except String Nat) = .ok n := congrArg Prod.snd h
      injection h2 with hn
      rw [← h1, ← hn]
  rcases merge_run_ok_inv L E L₁ n hrun with ⟨hmem, hcnt⟩
  refine ⟨⟨hmem, hcnt⟩, ?_⟩
  have hall : ∀ m ∈ E.memories, m.id ∈ L₁.memories.map (·.id) := by
    intro m hm
    rw [hmem, List.map_append, List.mem_append]
    by_cases hid : m.id ∈ L.memories.map (·.id)
    · exact Or.inl hid
    · right
      rw [List.map_map]
      exact List.mem_map.mpr ⟨m, List.mem_filter.mpr ⟨hm, by simpa using hid⟩, rfl⟩
  have h2 := merge_run_all_local L₁ E hall
  refine ⟨{ memories := L₁.memories, memory_tags := L₁.memory_tags,
            responses := L₁.responses, categories := (mergeCategories L₁ E).1 },
    ?_, rfl, rfl, rfl⟩
  simp [merge_databases, h2]

/-- Witness for C3 at a concrete first and second merge. -/
theorem merge_import_idempotent_witness :
    ((merge_databases mergeLocal mergeImport).1.memories = mergeLocal.memories ++
        ((mergeImport.memories.filter fun m =>
            m.id ∉ mergeLocal.memories.map (·.id)).map
          (mergeRewrite (mergeCategories mergeLocal mergeImport).2))
      ∧ 1 = (mergeImport.memories.filter fun m =>
          m.id ∉ mergeLocal.memories.map (·.id)).length)
    ∧ ∃ L₂, merge_databases (merge_databases mergeLocal mergeImport).1 mergeImport =
          (L₂, .ok 0)
        ∧ L₂.memories = (merge_databases mergeLocal mergeImport).1.memories
        ∧ L₂.memory_tags = (merge_databases mergeLocal mergeImport).1.memory_tags
        ∧ L₂.responses = (merge_databases mergeLocal mergeImport).1.responses :=
  merge_import_idempotent mergeLocal mergeImport
    (merge_databases mergeLocal mergeImport).1 1 (by rfl)

/-- C7: creating a memory locked with an unlock date strictly in the past
(into a store with no other promotable memory) and running one
scan-and-promote pass unlocks it and returns a promoted count of 1; a
second pass run immediately afterwards finds nothing eligible, changes
nothing, and returns 0. -/
theorem scan_promote_once : ∀ (s : Store) (memory_id : String) (now : Nat)
    (title : String) (content : Option String) (unlock_date : Nat)
    (category : Option String) (tags : List String) (media_path : Option String)
    (mood : Option String) (importance : Int) (unlock_type : String),
    (∀ m ∈ s.memories, m.id ≠ memory_id) →
    (∀ r ∈ s.memory_tags, r.memory_id ≠ memory_id) →
    tags.Nodup →
    (∀ m ∈ s.memories, m.is_unlocked = true ∨ now < m.unlock_date) →
    unlock_date < now →
    ∃ s₁ s₂ : Store,
      create_memory s memory_id now title content unlock_date category tags
          media_path mood importance unlock_type = (s₁, .ok memory_id)
      ∧ check_unlockable_memories s₁ now = (s₂, 1)
      ∧ (∀ m' ∈ s₂.memories, m'.id = memory_id → m'.is_unlocked = true)
      ∧ check_unlockable_memories s₂ now = (s₂, 0) := by
  intro s memory_id now title content unlock_date category tags media_path mood
    importance unlock_type hid htag hnodup hrest hu
  have hc := create_memory_ok s memory_id now title content unlock_date category
    tags media_path mood importance unlock_type hid htag hnodup
  set row : Memory := createdRow memory_id now title content unlock_date category
    media_path mood importance unlock_type with hrow
  set S1 : Store :=
    { s with memories := s.memories ++ [row],
             memory_tags := s.memory_tags ++ tags.map (mkTagRow memory_id) } with hS1
  set f : Memory → Memory :=
    (fun m => if m.id = memory_id then { m with is_unlocked := true } else m) with hf
  set S2 : Store := { S1 with memories := S1.memories.map f } with hS2
  have hrow_id : row.id = memory_id := rfl
  have hrow_pass : (decide (row.is_unlocked = false ∧ row.unlock_date ≤ now)) = true := by
    simp [hrow, createdRow, Nat.le_of_lt hu]
  have hno_old : ∀ m ∈ s.memories,
      ¬ (decide (m.is_unlocked = false ∧ m.unlock_date ≤ now) = true) := by
    intro m hm
    rcases hrest m hm with h1 | h1 <;> simp [h1]
  have hget1 : get_unlockable_memories S1 now = [row] := by
    unfold get_unlockable_memories
    show (s.memories ++ [row]).filter _ = [row]
    rw [List.filter_append, List.filter_eq_nil_iff.mpr hno_old]
    simp only [List.nil_append, List.filter_cons, hrow_pass, if_pos, List.filter_nil]
  have hany : S1.memories.any (fun m => decide (m.id = memory_id)) = true := by
    refine List.any_eq_true.mpr ⟨row, ?_, by simp [hrow_id]⟩
    exact List.mem_append_right _ (List.mem_singleton.mpr rfl)
  have hcheck1 : check_unlockable_memories S1 now = (S2, 1) := by
    unfold check_unlockable_memories
    rw [hget1]
    simp [List.foldl_cons, List.foldl_nil, unlock_memory, hany, hrow_id, hS2, hf]
    exact ⟨row, Or.inr rfl, hrow_id⟩
  have hS2mem : S2.memories = (s.memories ++ [row]).map f := rfl
  have hmono : ∀ m' ∈ S2.memories, m'.id = memory_id → m'.is_unlocked = true := by
    intro m' hm' hid'
    rw [hS2mem] at hm'
    rcases List.mem_map.mp hm' with ⟨x, hx, rfl⟩
    by_cases hxid : x.id = memory_id
    · simp [hf, hxid]
    · rw [hf] at hid' ⊢
      simp only [if_neg hxid] at hid' ⊢
      exact absurd hid' hxid
  have hget2 : get_unlockable_memories S2 now = [] := by
    unfold get_unlockable_memories
    rw [List.filter_eq_nil_iff]
    intro m' hm'
    rw [hS2mem] at hm'
    rcases List.mem_map.mp hm' with ⟨x, hx, rfl⟩
    rcases List.mem_append.mp hx with hxs | hxr
    · have hxid : ¬ x.id = memory_id := hid x hxs
      rw [hf]
      simp only [if_neg hxid]
      exact hno_old x hxs
    · rcases List.mem_singleton.mp hxr with rfl
      rw [hf]
      simp [hrow_id]
  have hcheck2 : check_unlockable_memories S2 now = (S2, 0) := by
    unfold check_unlockable_memories
    rw [hget2]
    rfl
  exact ⟨S1, S2, by rw [hc], hcheck1, hmono, hcheck2⟩

/-- Witness for C7: a fresh store, one memory unlocking yesterday. -/
theorem scan_promote_once_witness :
    ∃ s₁ s₂ : Store,
      create_memory initStore "m1" 10 "Trip" (some "body") 4 none [] none none 3
          "date" = (s₁, .ok "m1")
      ∧ check_unlockable_memories s₁ 10 = (s₂, 1)
      ∧ (∀ m' ∈ s₂.memories, m'.id = "m1" → m'.is_unlocked = true)
      ∧ check_unlockable_memories s₂ 10 = (s₂, 0) :=
  scan_promote_once initStore "m1" 10 "Trip" (some "body") 4 none [] none none 3
    "date" (by decide) (by decide) (by decide) (by decide) (by decide)

/-- C8 counterexample: with search text "a_c" the query returns the locked
memory titled "abc" — the raw search text is bound into the LIKE pattern
(src `f"%{search_text}%"`), so its `_` acts as a single-character wildcard —
although "abc" does not contain "a_c" and the memory has no tags.  The
claim's "included if and only if its title contains the text or a tag
contains it" is therefore false on the code at this input. -/
theorem locked_query_filter_counterexample :
    lockedView wildcardStore wildcardMemory ∈
      get_locked_memories wildcardStore none .by_unlock_date .asc "a_c" 50
    ∧ specContains wildcardMemory.title "a_c" = false
    ∧ wildcardStore.memory_tags = [] := by
  refine ⟨?_, by decide, rfl⟩
  exact (locked_query_mem wildcardStore none .by_unlock_date .asc "a_c" 50
    (by decide) (lockedView wildcardStore wildcardMemory)).mpr
    ⟨wildcardMemory, by decide, by decide, rfl⟩

/-- C8 (amended): the locked-memory browse query returns only memories with
`is_unlocked` false; when the category filter is given (non-null,
non-empty) only memories of that category are returned; when search text is
given, a memory is included exactly when its title or one of its tags
matches the SQLite LIKE pattern `'%' + text + '%'` case-insensitively — the
raw search text is bound into the pattern, so `%` and `_` inside it act as
LIKE wildcards rather than literal characters.  For search text containing
neither wildcard character this LIKE match is exactly case-insensitive
substring containment, so the original "contains" reading holds there.
(Membership is stated under the proviso that the matching rows fit within
`limit`, so `LIMIT` truncates nothing.)  In the spec's concrete scenario,
searching "birth" returns exactly A, filtering by Milestone's category id
returns exactly B, and searching "family" returns exactly A. -/
theorem locked_query_filter :
    (∀ (s : Store) (category_id : Option String) (sort_field : SortField)
       (sort_order : SortOrder) (search_text : String) (limit : Nat),
      (s.memories.filter (lockedPass s category_id search_text)).length ≤ limit →
      ∀ v, v ∈ get_locked_memories s category_id sort_field sort_order search_text
          limit ↔
        ∃ m ∈ s.memories,
          v = lockedView s m
          ∧ m.is_unlocked = false
          ∧ (∀ c, category_id = some c → c ≠ "" → m.category = some c)
          ∧ (search_text ≠ "" →
              likeContains m.title search_text = true
              ∨ ∃ t ∈ s.memory_tags, t.memory_id = m.id
                  ∧ likeContains t.tag search_text = true))
    ∧ (∀ (hay pat : String), '%' ∉ pat.toList.map Char.toLower →
        '_' ∉ pat.toList.map Char.toLower →
        likeContains hay pat = specContains hay pat)
    ∧ (∀ v, v ∈ get_locked_memories scenarioStore none .by_unlock_date .asc "birth" 50
        ↔ v = lockedView scenarioStore memoryA)
    ∧ (∀ v, v ∈ get_locked_memories scenarioStore (some "cat-milestone")
          .by_unlock_date .asc "" 50 ↔ v = lockedView scenarioStore memoryB)
    ∧ (∀ v, v ∈ get_locked_memories scenarioStore none .by_unlock_date .asc "family" 50
        ↔ v = lockedView scenarioStore memoryA) := by
  refine ⟨?_, fun hay pat h1 h2 => likeContains_eq_specContains hay pat h1 h2,
    ?_, ?_, ?_⟩
  · intro s category_id sort_field sort_order search_text limit hlim v
    rw [locked_query_mem s category_id sort_field sort_order search_text limit hlim v]
    constructor
    · rintro ⟨m, hm, hp, rfl⟩
      rcases (lockedPass_iff s category_id search_text m).mp hp with ⟨h1, h2, h3⟩
      exact ⟨m, hm, rfl, h1, h2, h3⟩
    · rintro ⟨m, hm, rfl, h1, h2, h3⟩
      exact ⟨m, hm, (lockedPass_iff s category_id search_text m).mpr ⟨h1, h2, h3⟩, rfl⟩
  · intro v
    rw [locked_query_mem scenarioStore none .by_unlock_date .asc "birth" 50
      (by decide) v]
    constructor
    · rintro ⟨m, hm, hp, rfl⟩
      have hm2 : m = memoryA ∨ m = memoryB := by simpa [scenarioStore] using hm
      rcases hm2 with rfl | rfl
      · rfl
      · exact absurd hp (by decide)
    · rintro rfl
      exact ⟨memoryA, by simp [scenarioStore], by decide, rfl⟩
  · intro v
    rw [locked_query_mem scenarioStore (some "cat-milestone") .by_unlock_date .asc
      "" 50 (by decide) v]
    constructor
    · rintro ⟨m, hm, hp, rfl⟩
      have hm2 : m = memoryA ∨ m = memoryB := by simpa [scenarioStore] using hm
      rcases hm2 with rfl | rfl
      · exact absurd hp (by decide)
      · rfl
    · rintro rfl
      exact ⟨memoryB, by simp [scenarioStore], by decide, rfl⟩
  · intro v
    rw [locked_query_mem scenarioStore none .by_unlock_date .asc "family" 50
      (by decide) v]
    constructor
    · rintro ⟨m, hm, hp, rfl⟩
      have hm2 : m = memoryA ∨ m = memoryB := by simpa [scenarioStore] using hm
      rcases hm2 with rfl | rfl
      · rfl
      · exact absurd hp (by decide)
    · rintro rfl
      exact ⟨memoryA, by simp [scenarioStore], by decide, rfl⟩

/-- Witness for C8: the general membership characterization applied to the
scenario store's "birth" search, and the wildcard-free agreement of the
LIKE match with literal containment at that search text. -/
theorem locked_query_filter_witness :
    (∀ v, v ∈ get_locked_memories scenarioStore none .by_unlock_date .asc "birth" 50 ↔
      ∃ m ∈ scenarioStore.memories,
        v = lockedView scenarioStore m
        ∧ m.is_unlocked = false
        ∧ (∀ c, (none : Option String) = some c → c ≠ "" → m.category = some c)
        ∧ (("birth" : String) ≠ "" →
            likeContains m.title "birth" = true
            ∨ ∃ t ∈ scenarioStore.memory_tags, t.memory_id = m.id
                ∧ likeContains t.tag "birth" = true))
    ∧ likeContains "Birthday Letter" "birth" = specContains "Birthday Letter" "birth" :=
  ⟨locked_query_filter.1 scenarioStore none .by_unlock_date .asc "birth" 50
    (by decide),
   locked_query_filter.2.1 "Birthday Letter" "birth" (by decide) (by decide)⟩

/-- C1: across every core operation (create, unlock, add-response, delete,
merge, and the read-only queries), a memory already present with
`is_unlocked` true never has any row under its id revert to false — the
flag only moves `false → true` — and a freshly created memory starts with
`is_unlocked` false. -/
theorem unlock_flag_monotonic :
    (∀ (s : Store) (op : Op) (i : String),
      (∃ m ∈ s.memories, m.id = i) →
      (∀ m ∈ s.memories, m.id = i → m.is_unlocked = true) →
      ∀ m' ∈ (applyOp s op).memories, m'.id = i → m'.is_unlocked = true)
    ∧ (∀ (s : Store) (memory_id : String) (now : Nat) (title : String)
         (content : Option String) (unlock_date : Nat) (category : Option String)
         (tags : List String) (media_path : Option String) (mood : Option String)
         (importance : Int) (unlock_type : String) (s' : Store) (rid : String),
        create_memory s memory_id now title content unlock_date category tags
            media_path mood importance unlock_type = (s', .ok rid) →
        ∀ m' ∈ s'.memories, m'.id = rid → m'.is_unlocked = false) := by
  constructor
  · intro s op i hex hall m' hm' hid'
    cases op with
    | create memory_id now title content unlock_date category tags media_path
        mood importance unlock_type =>
      rcases hr : create_memory_run s memory_id now title content unlock_date
          category tags media_path mood importance unlock_type with e | ⟨s1, rid⟩
      · have hs : (create_memory s memory_id now title content unlock_date
            category tags media_path mood importance unlock_type).1 = s := by
          unfold create_memory
          rw [hr]
        have hm2 : m' ∈ s.memories := by
          rw [← hs]
          exact hm'
        exact hall m' hm2 hid'
      · have hc : create_memory s memory_id now title content unlock_date
            category tags media_path mood importance unlock_type = (s1, .ok rid) := by
          unfold create_memory
          rw [hr]
        rcases create_memory_ok_inv s memory_id now title content unlock_date
          category tags media_path mood importance unlock_type s1 rid hc
          with ⟨-, hfresh, hmems⟩
        have hm2 : m' ∈ s1.memories := by
          have hs : (create_memory s memory_id now title content unlock_date
              category tags media_path mood importance unlock_type).1 = s1 := by
            rw [hc]
          rw [← hs]
          exact hm'
        rw [hmems] at hm2
        rcases List.mem_append.mp hm2 with h1 | h1
        · exact hall m' h1 hid'
        · rcases List.mem_singleton.mp h1 with rfl
          have him : memory_id = i := hid'
          rcases hex with ⟨m0, hm0, hm0i⟩
          exact absurd (by rw [hm0i, ← him]) (hfresh m0 hm0)
    | unlock j =>
      rcases List.mem_map.mp hm' with ⟨x, hx, rfl⟩
      by_cases hxj : x.id = j
      · rw [if_pos hxj]
      · rw [if_neg hxj] at hid' ⊢
        exact hall x hx hid'
    | respond response_id now memory_id response_content mood =>
      have hmem : (add_response s response_id now memory_id response_content
          mood).1.memories = s.memories := by
        unfold add_response
        rcases h : insertResponseRow s.responses
            { id := response_id, memory_id := memory_id,
              response_content := response_content, response_date := now,
              response_mood := mood } with e | rows <;> rfl
      have hm2 : m' ∈ s.memories := by
        rw [← hmem]
        exact hm'
      exact hall m' hm2 hid'
    | delete j =>
      exact hall m' (List.mem_filter.mp hm').1 hid'
    | merge E =>
      rcases hr : merge_run s E with e | ⟨s1, n⟩
      · have hs : (merge_databases s E).1 = s := by
          unfold merge_databases
          rw [hr]
        have hm2 : m' ∈ s.memories := by
          rw [← hs]
          exact hm'
        exact hall m' hm2 hid'
      · have hs : (merge_databases s E).1 = s1 := by
          unfold merge_databases
          rw [hr]
        rcases merge_run_ok_inv s E s1 n hr with ⟨hmem, -⟩
        have hm2 : m' ∈ s1.memories := by
          rw [← hs]
          exact hm'
        rw [hmem] at hm2
        rcases List.mem_append.mp hm2 with h1 | h1
        · exact hall m' h1 hid'
        · rcases List.mem_map.mp h1 with ⟨x, hx, rfl⟩
          have hxid : x.id ∉ s.memories.map (·.id) := by
            simpa using (List.mem_filter.mp hx).2
          have hxi : x.id = i := hid'
          rcases hex with ⟨m0, hm0, hm0i⟩
          exact absurd (List.mem_map.mpr ⟨m0, hm0, by rw [hm0i, hxi]⟩) hxid
    | queryById j => exact hall m' hm' hid'
    | queryLocked c sf so txt lim => exact hall m' hm' hid'
    | queryUnlockable t => exact hall m' hm' hid'
  · intro s memory_id now title content unlock_date category tags media_path mood
      importance unlock_type s' rid h m' hm' hid'
    rcases create_memory_ok_inv s memory_id now title content unlock_date category
      tags media_path mood importance unlock_type s' rid h with ⟨hrid, hfresh, hmems⟩
    subst hrid
    rw [hmems] at hm'
    rcases List.mem_append.mp hm' with h1 | h1
    · exact absurd hid' (hfresh m' h1)
    · rcases List.mem_singleton.mp h1 with rfl
      rfl

/-- Witness for C1: a delete step over a store holding an unlocked memory,
and the locked flag of a concrete fresh creation. -/
theorem unlock_flag_monotonic_witness :
    (∀ m' ∈ (applyOp unlockedSample (.delete "zzz")).memories,
      m'.id = "u1" → m'.is_unlocked = true)
    ∧ (∀ m' ∈ ((create_memory initStore "m1" 5 "Trip" (some "body") 9 none []
        none none 3 "date").1).memories, m'.id = "m1" → m'.is_unlocked = false) :=
  ⟨unlock_flag_monotonic.1 unlockedSample (.delete "zzz") "u1" (by decide)
      (by decide),
   unlock_flag_monotonic.2 initStore "m1" 5 "Trip" (some "body") 9 none [] none
      none 3 "date" (create_memory initStore "m1" 5 "Trip" (some "body") 9 none []
        none none 3 "date").1 "m1" (by rfl)⟩
